import Mathlib

/-! MinIO operator: Prometheus config map synthesis and drift check

A shallow embedding of `pkg/resources/configmaps/prometheus.go`,
`pkg/resources/secrets/log.go`, `pkg/resources/deployments/log-search-api.go`
and the parts of `pkg/apis/minio.min.io/v1` they read.

* Go slices are `Slice α = Option (List α)`: `none` is the nil slice and
  `some []` the empty non-nil slice, which `reflect.DeepEqual` tells apart.
* A Go function that can panic returns `Except GoPanic _`.
* Code that lives outside the modelled files (the `Tenant` helper methods of
  package `v1`, the YAML codec, the JWT library's codec and MAC primitive) is
  collected in the record `Env`, extended by `LogEnv` for the log-search code,
  and passed explicitly.
* Go maps are association lists; `t.Spec.Log` and `t.Spec.Log.Audit` are read as
  plain struct fields.
* The wall clock is the argument `now`, in seconds since the epoch.
* The key-type rule of the JWT library's HMAC method (a key that is not a byte
  slice is refused) is part of `SigningMethod.Verify`.
-/

namespace MinioOperator

/-! ## Data model -/

/-- A Go slice: `none` is `nil`, `some xs` a non-nil slice with elements `xs`. -/
abbrev Slice (α : Type) := Option (List α)

/-- Run-time panics of the Go code. -/
inductive GoPanic where
  | indexOutOfRange (index len : Nat)
  deriving DecidableEq, Repr

deriving instance DecidableEq for Except

/-- Index expression `s[i]` on a slice, with Go's bounds check. -/
def Slice.index {α : Type} (s : Slice α) (i : Nat) : Except GoPanic α :=
  match (s.getD [])[i]? with
  | some x => .ok x
  | none => .error (.indexOutOfRange i (s.getD []).length)

/-- Assignment `s[i] = x` through a slice, with Go's bounds check. -/
def Slice.assign {α : Type} (s : Slice α) (i : Nat) (x : α) : Except GoPanic (Slice α) :=
  match s with
  | some xs => if i < xs.length then .ok (some (xs.set i x)) else .error (.indexOutOfRange i xs.length)
  | none => .error (.indexOutOfRange i 0)

/-- The field `Name` of `corev1.LocalObjectReference`. -/
structure LocalObjectReference where
  Name : String
  deriving DecidableEq, Repr

/-- An entry of `metav1.ObjectMeta.OwnerReferences`. -/
structure OwnerReference where
  APIVersion : String
  Kind : String
  Name : String
  UID : String
  deriving DecidableEq, Repr

/-- The fields of `metav1.ObjectMeta` the modelled code sets. -/
structure ObjectMeta where
  Name : String := ""
  Namespace : String := ""
  Labels : List (String × String) := []
  OwnerReferences : List OwnerReference := []
  deriving DecidableEq, Repr

/-- A pool of the tenant; `Servers` is Go's `int32`. -/
structure Pool where
  Name : String
  Servers : Int
  deriving DecidableEq, Repr

/-- The type of `t.Spec.Log.Audit`. -/
structure AuditConfig where
  RetentionPeriod : Option Int := none
  deriving DecidableEq, Repr

/-- The type of `t.Spec.Log`. -/
structure LogConfig where
  Audit : AuditConfig := {}
  deriving DecidableEq, Repr

/-- The fields of `TenantSpec` read by the modelled code. -/
structure TenantSpec where
  Pools : List Pool
  ImagePullSecret : LocalObjectReference := ⟨""⟩
  ImagePullPolicy : String := ""
  ServiceAccountName : String := ""
  Log : LogConfig := {}
  deriving DecidableEq, Repr

/-- The fields of `miniov1.Tenant` read by the modelled code. -/
structure Tenant where
  Name : String
  Namespace : String
  Spec : TenantSpec
  deriving DecidableEq, Repr

/-- Go's `time.Duration`, in nanoseconds. -/
abbrev Duration := Int

/-- The constant `time.Second`. -/
def Second : Duration := 1000000000

/-- The constant `time.Hour`. -/
def Hour : Duration := 3600 * Second

structure globalConfig where
  ScrapeInterval : Duration := 0
  EvaluationInterval : Duration := 0
  deriving DecidableEq, Repr

structure staticConfig where
  Targets : Slice String := none
  deriving DecidableEq, Repr

structure tlsConfig where
  CAFile : String := ""
  deriving DecidableEq, Repr

structure scrapeConfig where
  JobName : String := ""
  BearerToken : String := ""
  MetricsPath : String := ""
  Scheme : String := ""
  TLSConfig : tlsConfig := {}
  StaticConfigs : Slice staticConfig := none
  deriving DecidableEq, Repr

structure prometheusConfig where
  Global : globalConfig := {}
  ScrapeConfigs : Slice scrapeConfig := none
  deriving DecidableEq, Repr

/-- The fields of `corev1.ConfigMap` the modelled code sets or reads; `Data`
is the Go map as an association list. -/
structure ConfigMap where
  ObjectMeta : ObjectMeta := {}
  Data : List (String × String) := []
  deriving DecidableEq, Repr

/-- Go map lookup `m[k]` on a `map[string]string`: the zero value `""` when the
key is absent. -/
def mapGet (m : List (String × String)) (k : String) : String :=
  match m.find? (fun kv => kv.1 == k) with
  | some kv => kv.2
  | none => ""

/-! ## The JWT library's data -/

/-- The registered claims the library validates, as found in a parsed token
(`0` is the zero value: the claim is absent). -/
structure StandardClaims where
  ExpiresAt : Int := 0
  IssuedAt : Int := 0
  Issuer : String := ""
  NotBefore : Int := 0
  Subject : String := ""
  deriving DecidableEq, Repr

/-- The signing method a token header's `alg` resolves to: the HMAC family
(`*jwt.SigningMethodHMAC`) or any other registered method. -/
inductive SigningMethod where
  | HMAC (alg : String)
  | other (alg : String)
  deriving DecidableEq, Repr

/-- A `jwt.Token` after the unverified parse: method, claims, the two signed
segments joined by a dot, and the signature segment. -/
structure Token where
  Method : SigningMethod
  Claims : StandardClaims
  SigningString : String
  Signature : String
  deriving DecidableEq, Repr

/-- A key value of type `interface{}` as a key function may hand it back: a
Go `string` or a `[]byte`. -/
inductive KeyValue where
  | str (s : String)
  | bytes (b : List UInt8)
  deriving DecidableEq, Repr

/-- Errors of `jwt.Parse`. -/
inductive JwtError where
  | malformed
  | unverifiable (msg : String)
  | invalid (claimsInvalid signatureInvalid : Bool)
  deriving DecidableEq, Repr

/-! ## Code outside the modelled files -/

/-- Everything the modelled functions call that is declared elsewhere. -/
structure Env where
  /-- The method `(*Tenant).PoolStatefulsetName`. -/
  PoolStatefulsetName : Tenant → Pool → String
  /-- The method `(*Tenant).MinIOHLServiceName`. -/
  MinIOHLServiceName : Tenant → String
  /-- The value of `miniov1.GetClusterDomain()`. -/
  GetClusterDomain : String
  /-- The method `(*Tenant).TLS`. -/
  TLS : Tenant → Bool
  /-- The method `(*Tenant).PrometheusConfigMapName`. -/
  PrometheusConfigMapName : Tenant → String
  /-- The method `(*Tenant).OwnerRef`. -/
  OwnerRef : Tenant → List OwnerReference
  /-- The call `yaml.Marshal` on a `*prometheusConfig`; it reports an error only for
  kinds of value that do not occur in this type. -/
  yamlMarshal : prometheusConfig → String
  /-- The call `yaml.Unmarshal` into a `prometheusConfig`. -/
  yamlUnmarshal : String → Except String prometheusConfig
  /-- The method `(*jwt.Token).SigningString` of an HS512 token with the given claims. -/
  signingString : StandardClaims → String
  /-- The encoded HMAC-SHA512 signature of a signing string under a byte key. -/
  hmacSign : List UInt8 → String → String
  /-- The HMAC comparison of `SigningMethodHMAC.Verify` once the key is known
  to be a byte slice: decode the signature, recompute the MAC, compare. -/
  hmacVerify : String → List UInt8 → String → String → Bool
  /-- The method `Verify` of a signing method outside the HMAC family. -/
  otherVerify : String → String → String → KeyValue → Bool
  /-- The method `(*jwt.Parser).ParseUnverified`: split the compact form, decode header
  and claims, resolve the signing method. -/
  parseUnverified : String → Except JwtError Token

/-- The conversion `[]byte(s)`: the UTF-8 bytes of a Go string. -/
def toBytes (s : String) : List UInt8 :=
  s.data.foldr (fun c acc => String.utf8EncodeChar c ++ acc) []

/-! ## constants.go -/

/-- The constant `miniov1.MinIOPort`. -/
def MinIOPort : Nat := 9000

/-! ## prometheus.go -/

/-- The constant `defaultPrometheusJWTExpiry = 100 * 365 * 24 * time.Hour`. -/
def defaultPrometheusJWTExpiry : Duration := 100 * 365 * 24 * Hour

/-- The value of `time.Now().UTC().Add(d).Unix()` for a clock reading of `now` seconds since
the epoch and a duration of whole seconds. -/
def unixAfter (now : Int) (d : Duration) : Int :=
  now + d / Second

/-- Function `genBearerToken`: an HS512 token with the three claims, signed with the
byte slice `[]byte(secretKey)`. Signing with a byte-slice key cannot fail, so
the panic branch is not reachable. -/
def genBearerToken (E : Env) (now : Int) (accessKey secretKey : String) : String :=
  let claims : StandardClaims :=
    { ExpiresAt := unixAfter now defaultPrometheusJWTExpiry
      Subject := accessKey
      Issuer := "prometheus" }
  let sstr := E.signingString claims
  sstr ++ "." ++ E.hmacSign (toBytes secretKey) sstr

/-- The number of iterations of `for i := 0; i < int(pool.Servers); i++`. -/
def serverCount (pool : Pool) : Nat :=
  pool.Servers.toNat

/-- The format `"%s-%d.%s.%s.svc.%s:%d"` applied to the six arguments. -/
def podAddr (E : Env) (t : Tenant) (poolName : String) (i : Nat) : String :=
  poolName ++ "-" ++ toString i ++ "." ++ E.MinIOHLServiceName t ++ "." ++ t.Namespace
    ++ ".svc." ++ E.GetClusterDomain ++ ":" ++ toString MinIOPort

/-- Function `getMinioPodAddrs`: the two nested loops, appending one target per
iteration to a slice that starts as the empty non-nil slice. -/
def getMinioPodAddrs (E : Env) (t : Tenant) : List String :=
  t.Spec.Pools.foldl
    (fun targets pool =>
      let poolName := E.PoolStatefulsetName t pool
      (List.range (serverCount pool)).foldl
        (fun targets i => targets ++ [podAddr E t poolName i]) targets)
    []

/-- Method `(*prometheusConfig).ConfigFile`: the fixed two-line header, a blank
line, then the marshalled document. -/
def ConfigFile (E : Env) (p : prometheusConfig) : String :=
  "# This file and config-map is generated by MinIO Operator.\n# DO NOT EDIT.\n\n"
    ++ E.yamlMarshal p

/-- Function `getPrometheusConfig`. -/
def getPrometheusConfig (E : Env) (now : Int) (t : Tenant) (accessKey secretKey : String) :
    prometheusConfig :=
  let bearerToken := genBearerToken E now accessKey secretKey
  let minioTargets := getMinioPodAddrs E t
  let minioScheme := if E.TLS t then "https" else "http"
  { Global :=
      { ScrapeInterval := 10 * Second
        EvaluationInterval := 30 * Second }
    ScrapeConfigs := some
      [ { JobName := "minio"
          BearerToken := bearerToken
          MetricsPath := "/minio/prometheus/metrics"
          Scheme := minioScheme
          TLSConfig := { CAFile := "/var/run/secrets/kubernetes.io/serviceaccount/ca.crt" }
          StaticConfigs := some [ { Targets := some minioTargets } ] } ] }

/-- The constant `prometheusYml`. -/
def prometheusYml : String := "prometheus.yml"

/-- Function `fromPrometheusConfigMap`: unmarshal the value stored under
`prometheus.yml` (the empty string when the key is absent). -/
def fromPrometheusConfigMap (E : Env) (configMap : ConfigMap) : Except String prometheusConfig :=
  let configFile := mapGet configMap.Data prometheusYml
  E.yamlUnmarshal configFile

/-- Method `(*prometheusConfig).getConfigMap`. -/
def getConfigMap (E : Env) (p : prometheusConfig) (tenant : Tenant) : ConfigMap :=
  { ObjectMeta :=
      { Name := E.PrometheusConfigMapName tenant
        Namespace := tenant.Namespace
        OwnerReferences := E.OwnerRef tenant }
    Data := [(prometheusYml, ConfigFile E p)] }

/-! ### The JWT library's `Parse` -/

/-- The claims check of `jwt.Parse` (`MapClaims.Valid`): `exp`, `iat` and `nbf`
are each checked against the clock only when present. -/
def StandardClaims.Valid (c : StandardClaims) (now : Int) : Bool :=
  (c.ExpiresAt == 0 || decide (now ≤ c.ExpiresAt))
    && (c.IssuedAt == 0 || decide (c.IssuedAt ≤ now))
    && (c.NotBefore == 0 || decide (c.NotBefore ≤ now))

/-- The method `Verify` of a signing method; `true` stands for a nil error.
The HMAC family first asserts that the key is a byte slice and reports
`ErrInvalidKeyType` for a key of any other type. -/
def SigningMethod.Verify (E : Env) (m : SigningMethod) (signingString signature : String)
    (key : KeyValue) : Bool :=
  match m with
  | .HMAC alg =>
    match key with
    | .bytes keyBytes => E.hmacVerify alg keyBytes signingString signature
    | .str _ => false
  | .other alg => E.otherVerify alg signingString signature key

/-- The function `jwt.Parse`: unverified parse, key lookup through the key
function, claims validation, signature verification; the token is returned
without error only when both checks pass. -/
def Parse (E : Env) (now : Int) (tokenString : String)
    (keyFunc : Token → Except String KeyValue) : Except JwtError Token :=
  match E.parseUnverified tokenString with
  | .error e => .error e
  | .ok token =>
    match keyFunc token with
    | .error msg => .error (.unverifiable msg)
    | .ok key =>
      let claimsInvalid := !token.Claims.Valid now
      let signatureInvalid := !token.Method.Verify E token.SigningString token.Signature key
      if !claimsInvalid && !signatureInvalid then .ok token
      else .error (.invalid claimsInvalid signatureInvalid)

/-! ### The drift check -/

/-- The key function of `bearerTokenNeedsUpdate`: an error for a method outside
the HMAC family, otherwise `secretKey` itself, a Go `string`. -/
def bearerTokenKeyFunc (secretKey : String) (token : Token) : Except String KeyValue :=
  match token.Method with
  | .HMAC _ => .ok (.str secretKey)
  | .other alg => .error ("Unexpected signing method: " ++ alg)

/-- Method `(*prometheusConfig).bearerTokenNeedsUpdate`: `err != nil` of parsing
the first scrape config's bearer token. -/
def bearerTokenNeedsUpdate (E : Env) (now : Int) (p : prometheusConfig) (secretKey : String) :
    Except GoPanic Bool := do
  let sc ← p.ScrapeConfigs.index 0
  let tokenStr := sc.BearerToken
  match Parse E now tokenStr (bearerTokenKeyFunc secretKey) with
  | .ok _ => pure false
  | .error _ => pure true

/-- The statement `p.ScrapeConfigs[0].BearerToken = ""`. -/
def maskBearerToken (p : prometheusConfig) : Except GoPanic prometheusConfig := do
  let sc ← p.ScrapeConfigs.index 0
  let scs ← p.ScrapeConfigs.assign 0 { sc with BearerToken := "" }
  pure { p with ScrapeConfigs := scs }

/-- Function `PrometheusConfigMap`. -/
def PrometheusConfigMap (E : Env) (now : Int) (tenant : Tenant) (accessKey secretKey : String) :
    ConfigMap :=
  let config := getPrometheusConfig E now tenant accessKey secretKey
  getConfigMap E config tenant

/-- Function `UpdatePrometheusConfigMap`, for a non-nil `existing`: `none` is the
nil result. The two pointers `config` and `existingConfig` are threaded as
values, so the masking assignments are visible to the statements after them. -/
def UpdatePrometheusConfigMap (E : Env) (now : Int) (t : Tenant) (accessKey secretKey : String)
    (existing : ConfigMap) : Except GoPanic (Option ConfigMap) :=
  let config := getPrometheusConfig E now t accessKey secretKey
  match fromPrometheusConfigMap E existing with
  | .error _ => pure (some (getConfigMap E config t))
  | .ok existingConfig => do
    let needsUpdate ← bearerTokenNeedsUpdate E now existingConfig secretKey
    let (config, needsUpdate) ←
      if !needsUpdate then do
        let config ← maskBearerToken config
        let existingConfig ← maskBearerToken existingConfig
        pure (config, if existingConfig ≠ config then true else needsUpdate)
      else
        pure (config, needsUpdate)
    if needsUpdate then
      pure (some (getConfigMap E config t))
    else
      pure none

/-! ## A reference environment

A small executable instance of `Env`, used to run the definitions on concrete
inputs. Its YAML codec reads and writes the block-style subset in which the
operator's own documents are written, and its token codec keeps the compact
three-segment form with a checksum in place of HMAC-SHA512. No general theorem
below depends on it. -/

namespace Ref

/-- Split a character list at every occurrence of `sep`. -/
def splitOn (sep : Char) : List Char → List (List Char)
  | [] => [[]]
  | c :: cs =>
    match splitOn sep cs with
    | [] => [[]]
    | l :: ls => if c = sep then [] :: l :: ls else (c :: l) :: ls

/-- Remove the leading characters `p` from a character list, if it starts with them. -/
def dropLeading? : List Char → List Char → Option (List Char)
  | [], cs => some cs
  | _ :: _, [] => none
  | p :: ps, c :: cs => if p = c then dropLeading? ps cs else none

/-- Read a non-empty string of decimal digits. -/
def parseNat? (cs : List Char) : Option Nat :=
  if cs ≠ [] ∧ cs.all Char.isDigit then
    some (cs.foldl (fun n c => 10 * n + (c.toNat - 48)) 0)
  else none

/-- Read a duration written as whole seconds, such as `10s`. -/
def parseDuration? (cs : List Char) : Option Duration :=
  match cs.reverse with
  | 's' :: ds => (parseNat? ds.reverse).map (fun n => (n : Int) * Second)
  | _ => none

/-- Apply `f` to the last element of a list. -/
def updateLast {α : Type} (f : α → α) : List α → Option (List α)
  | [] => none
  | [x] => some [f x]
  | x :: y :: xs => (updateLast f (y :: xs)).map (x :: ·)

/-- Apply `f` to the last scrape config of a document. -/
def onLastScrape (p : prometheusConfig) (f : scrapeConfig → scrapeConfig) :
    Except String prometheusConfig :=
  match updateLast f (p.ScrapeConfigs.getD []) with
  | some scs => .ok { p with ScrapeConfigs := some scs }
  | none => .error "field outside a scrape config"

/-- A scalar value: `""` is the empty string, anything else is taken verbatim. -/
def scalar (cs : List Char) : String :=
  if cs = ['"', '"'] then "" else String.mk cs

/-- Consume one line of a document. -/
def decodeLine (p : prometheusConfig) (line : List Char) : Except String prometheusConfig :=
  if line = [] ∨ line.head? = some '#' then .ok p
  else if line = "global:".data then .ok p
  else if let some v := dropLeading? "  scrape_interval: ".data line then
    match parseDuration? v with
    | some d => .ok { p with Global := { p.Global with ScrapeInterval := d } }
    | none => .error "cannot unmarshal into time.Duration"
  else if let some v := dropLeading? "  evaluation_interval: ".data line then
    match parseDuration? v with
    | some d => .ok { p with Global := { p.Global with EvaluationInterval := d } }
    | none => .error "cannot unmarshal into time.Duration"
  else if line = "scrape_configs:".data ∨ line = "scrape_configs: []".data then
    .ok { p with ScrapeConfigs := some [] }
  else if let some v := dropLeading? "- job_name: ".data line then
    .ok { p with ScrapeConfigs := some (p.ScrapeConfigs.getD [] ++ [{ JobName := scalar v }]) }
  else if let some v := dropLeading? "  bearer_token: ".data line then
    onLastScrape p (fun sc => { sc with BearerToken := scalar v })
  else if let some v := dropLeading? "  metrics_path: ".data line then
    onLastScrape p (fun sc => { sc with MetricsPath := scalar v })
  else if let some v := dropLeading? "  scheme: ".data line then
    onLastScrape p (fun sc => { sc with Scheme := scalar v })
  else if line = "  tls_config:".data then onLastScrape p id
  else if let some v := dropLeading? "    ca_file: ".data line then
    onLastScrape p (fun sc => { sc with TLSConfig := { CAFile := scalar v } })
  else if line = "  static_configs:".data ∨ line = "  static_configs: []".data then
    onLastScrape p (fun sc => { sc with StaticConfigs := some [] })
  else if line = "  - targets:".data ∨ line = "  - targets: []".data then
    onLastScrape p (fun sc =>
      { sc with StaticConfigs := some (sc.StaticConfigs.getD [] ++ [{ Targets := some [] }]) })
  else if let some v := dropLeading? "    - ".data line then
    onLastScrape p (fun sc =>
      { sc with StaticConfigs :=
          (updateLast (fun st => { st with Targets := some (st.Targets.getD [] ++ [scalar v]) })
            (sc.StaticConfigs.getD [])) })
  else .error "yaml: unsupported line"

/-- Decode a document line by line, starting from the zero value; the empty
document decodes to the zero value. -/
def yamlUnmarshal (s : String) : Except String prometheusConfig :=
  (splitOn '\n' s.data).foldlM decodeLine {}

/-- Write a scalar: the empty string as `""`. -/
def showScalar (s : String) : String :=
  if s = "" then "\"\"" else s

/-- Write a duration of whole seconds. -/
def showDuration (d : Duration) : String :=
  toString (d / Second).toNat ++ "s"

/-- Write one static config. -/
def encodeStatic (st : staticConfig) : String :=
  match st.Targets.getD [] with
  | [] => "  - targets: []\n"
  | ts => "  - targets:\n" ++ String.join (ts.map (fun a => "    - " ++ showScalar a ++ "\n"))

/-- Write one scrape config. -/
def encodeScrape (sc : scrapeConfig) : String :=
  "- job_name: " ++ showScalar sc.JobName ++ "\n"
    ++ "  bearer_token: " ++ showScalar sc.BearerToken ++ "\n"
    ++ "  metrics_path: " ++ showScalar sc.MetricsPath ++ "\n"
    ++ "  scheme: " ++ showScalar sc.Scheme ++ "\n"
    ++ "  tls_config:\n"
    ++ "    ca_file: " ++ showScalar sc.TLSConfig.CAFile ++ "\n"
    ++ (match sc.StaticConfigs.getD [] with
        | [] => "  static_configs: []\n"
        | sts => "  static_configs:\n" ++ String.join (sts.map encodeStatic))

/-- Write a document in block style. -/
def yamlMarshal (p : prometheusConfig) : String :=
  "global:\n"
    ++ "  scrape_interval: " ++ showDuration p.Global.ScrapeInterval ++ "\n"
    ++ "  evaluation_interval: " ++ showDuration p.Global.EvaluationInterval ++ "\n"
    ++ (match p.ScrapeConfigs.getD [] with
        | [] => "scrape_configs: []\n"
        | scs => "scrape_configs:\n" ++ String.join (scs.map encodeScrape))

/-- Segment encoding: the code points in decimal, joined by `_`. -/
def encodeSegment (s : String) : String :=
  String.intercalate "_" (s.data.map (fun c => toString c.toNat))

/-- Inverse of `encodeSegment`. -/
def decodeSegment? (cs : List Char) : Option String :=
  if cs = [] then some ""
  else ((splitOn '_' cs).mapM (fun d => (parseNat? d).map Char.ofNat)).map String.mk

/-- The signing string: the `alg` of the header, a dot, and the claims `exp`,
`iss`, `sub` separated by commas. -/
def signingString (c : StandardClaims) : String :=
  "HS512." ++ toString c.ExpiresAt.toNat ++ "," ++ encodeSegment c.Issuer ++ ","
    ++ encodeSegment c.Subject

/-- A keyed checksum standing in for HMAC-SHA512. -/
def hmacSign (key : List UInt8) (s : String) : String :=
  toString ((key.map (·.toNat) ++ 0 :: s.data.map Char.toNat).foldl
    (fun h n => (h * 257 + n + 1) % 1000003) 7)

/-- Recompute the checksum and compare. -/
def hmacVerify (_alg : String) (key : List UInt8) (s signature : String) : Bool :=
  hmacSign key s == signature

/-- The signing method registered under a header `alg`. -/
def getSigningMethod? (alg : String) : Option SigningMethod :=
  if alg ∈ ["HS256", "HS384", "HS512"] then some (.HMAC alg)
  else if alg ∈ ["RS256", "RS384", "RS512", "ES256", "ES384", "ES512", "PS256", "PS384",
      "PS512", "none"] then some (.other alg)
  else none

/-- Read the claims segment. -/
def decodeClaims? (cs : List Char) : Option StandardClaims :=
  match splitOn ',' cs with
  | [e, i, s] =>
    match parseNat? e, decodeSegment? i, decodeSegment? s with
    | some exp, some iss, some sub => some { ExpiresAt := exp, Issuer := iss, Subject := sub }
    | _, _, _ => none
  | _ => none

/-- Split the compact form into its three segments and decode the first two. -/
def parseUnverified (tokenString : String) : Except JwtError Token :=
  match splitOn '.' tokenString.data with
  | [h, c, sig] =>
    match getSigningMethod? (String.mk h), decodeClaims? c with
    | some m, some claims =>
      .ok { Method := m, Claims := claims,
            SigningString := String.mk h ++ "." ++ String.mk c, Signature := String.mk sig }
    | _, _ => .error .malformed
  | _ => .error .malformed

/-- The reference environment; `tls` is the value of `t.TLS()`. -/
def env (tls : Bool) : Env where
  PoolStatefulsetName := fun t pool => t.Name ++ "-" ++ pool.Name
  MinIOHLServiceName := fun t => t.Name ++ "-hl"
  GetClusterDomain := "cluster.local"
  TLS := fun _ => tls
  PrometheusConfigMapName := fun t => t.Name ++ "-prometheus-config-map"
  OwnerRef := fun t => [⟨"minio.min.io/v1", "Tenant", t.Name, ""⟩]
  yamlMarshal := yamlMarshal
  yamlUnmarshal := yamlUnmarshal
  signingString := signingString
  hmacSign := hmacSign
  hmacVerify := hmacVerify
  otherVerify := fun _ _ _ _ => false
  parseUnverified := parseUnverified

/-- A tenant with two pools of two servers each. -/
def tenant : Tenant :=
  { Name := "t1", Namespace := "ns", Spec := { Pools := [⟨"a", 2⟩, ⟨"b", 2⟩] } }

/-- The environment of the topology scenario: statefulsets named after their
pools and a headless service named `h`. -/
def scenarioEnv : Env :=
  { env false with
    PoolStatefulsetName := fun _ pool => pool.Name
    MinIOHLServiceName := fun _ => "h" }

/-- The tenant of the topology scenario: pools of sizes 3 and 2. -/
def scenarioTenant : Tenant :=
  { Name := "t1", Namespace := "ns", Spec := { Pools := [⟨"pool0", 3⟩, ⟨"pool1", 2⟩] } }

/-- A well-formed document that is not the desired one. -/
def foreignConfigMap : ConfigMap :=
  { Data := [(prometheusYml, "scrape_configs:\n- job_name: other\n  bearer_token: abc\n")] }

/-- A config map whose document does not parse. -/
def corruptConfigMap : ConfigMap :=
  { Data := [(prometheusYml, "scrape_configs: 5")] }

end Ref

/-! ## Secrets and deployments: data model -/

/-- The fields of `corev1.Secret` the modelled code sets; `SecretType` is the
field `Type`, and `Data` is the Go map `map[string][]byte` as an association
list. -/
structure Secret where
  SecretType : String := ""
  ObjectMeta : ObjectMeta := {}
  Data : List (String × List UInt8) := []
  deriving DecidableEq, Repr

/-- The type `corev1.SecretKeySelector`. -/
structure SecretKeySelector where
  LocalObjectReference : LocalObjectReference
  Key : String
  deriving DecidableEq, Repr

/-- The field `SecretKeyRef` of `corev1.EnvVarSource`; `none` is the nil pointer. -/
structure EnvVarSource where
  SecretKeyRef : Option SecretKeySelector := none
  deriving DecidableEq, Repr

/-- The type `corev1.EnvVar`; `ValueFrom` is a pointer, `none` when nil. -/
structure EnvVar where
  Name : String
  Value : String := ""
  ValueFrom : Option EnvVarSource := none
  deriving DecidableEq, Repr

/-- The field `ContainerPort` of `corev1.ContainerPort`. -/
structure ContainerPort where
  ContainerPort : Int
  deriving DecidableEq, Repr

/-- The fields of `corev1.Container` the modelled code sets. -/
structure Container where
  Name : String := ""
  Image : String := ""
  Ports : Slice ContainerPort := none
  ImagePullPolicy : String := ""
  Env : Slice EnvVar := none
  deriving DecidableEq, Repr

/-- The fields of `corev1.PodSpec` the modelled code sets. -/
structure PodSpec where
  ServiceAccountName : String := ""
  Containers : Slice Container := none
  RestartPolicy : String := ""
  ImagePullSecrets : Slice LocalObjectReference := none
  deriving DecidableEq, Repr

/-- The type `corev1.PodTemplateSpec`. -/
structure PodTemplateSpec where
  ObjectMeta : ObjectMeta := {}
  Spec : PodSpec := {}
  deriving DecidableEq, Repr

/-- The field `MatchLabels` of `metav1.LabelSelector`, a Go map. -/
structure LabelSelector where
  MatchLabels : List (String × String) := []
  deriving DecidableEq, Repr

/-- The fields of `appsv1.DeploymentSpec` the modelled code sets; `Replicas` and
`Selector` are pointers. -/
structure DeploymentSpec where
  Replicas : Option Int := none
  Selector : Option LabelSelector := none
  Template : PodTemplateSpec := {}
  deriving DecidableEq, Repr

/-- The fields of `appsv1.Deployment` the modelled code sets. -/
structure Deployment where
  ObjectMeta : ObjectMeta := {}
  Spec : DeploymentSpec := {}
  deriving DecidableEq, Repr

/-- The environment extended with the declarations of package `v1` that the
log-search code uses and that live outside the modelled files. -/
structure LogEnv extends Env where
  /-- The method `(*Tenant).LogSecretName`. -/
  LogSecretName : Tenant → String
  /-- The method `(*Tenant).LogSearchAPIPodLabels`, a Go map. -/
  LogSearchAPIPodLabels : Tenant → List (String × String)
  /-- The method `(*Tenant).LogSearchAPIDeploymentName`. -/
  LogSearchAPIDeploymentName : Tenant → String
  /-- The constant `miniov1.LogSearchAPIContainerName`. -/
  LogSearchAPIContainerName : String

/-! ## constants.go, log related -/

/-- The constant `miniov1.LogSearchAPIImage`. -/
def LogSearchAPIImage : String := "minio/log-search-api"

/-- The constant `miniov1.LogSearchAPIPort`. -/
def LogSearchAPIPort : Int := 8080

/-- The constant `miniov1.LogPgPassKey`. -/
def LogPgPassKey : String := "POSTGRES_PASSWORD"

/-- The constant `miniov1.LogPgConnStr`. -/
def LogPgConnStr : String := "LOG_PG_CONNSTR"

/-- The constant `miniov1.LogPgUser`. -/
def LogPgUser : String := "postgres"

/-- The constant `miniov1.LogAuditDB`. -/
def LogAuditDB : String := "minio_logs"

/-- The constant `miniov1.LogAuditTokenKey`. -/
def LogAuditTokenKey : String := "LOG_AUDIT_TOKEN"

/-- The constant `miniov1.LogRetentionPeriodKey`. -/
def LogRetentionPeriodKey : String := "LOG_RETENTION_PERIOD"

/-- The constant `corev1.RestartPolicyAlways`. -/
def RestartPolicyAlways : String := "Always"

/-! ## secrets/log.go -/

/-- Function `LogSecret`: the connection string is formatted from the user
name, the literal password `example`, the empty `dbAddr` and the database
name; the data map holds the password, the audit token and that string. -/
def LogSecret (L : LogEnv) (t : Tenant) : Secret :=
  let dbAddr := ""
  let pgConnStr :=
    "postgres://" ++ LogPgUser ++ ":" ++ "example" ++ "@" ++ dbAddr ++ "/" ++ LogAuditDB
      ++ "?sslmode=disable"
  { SecretType := "Opaque"
    ObjectMeta :=
      { Name := L.LogSecretName t
        Namespace := t.Namespace
        OwnerReferences := L.OwnerRef t }
    Data :=
      [ (LogPgPassKey, toBytes "example")
      , (LogAuditTokenKey, toBytes "audit_token")
      , (LogPgConnStr, toBytes pgConnStr) ] }

/-! ## deployments/log-search-api.go -/

/-- Function `logSearchAPIEnvVars`; `%d` of a Go `int` is its decimal rendering. -/
def logSearchAPIEnvVars (L : LogEnv) (t : Tenant) : List EnvVar :=
  let retentionPeriod : Int :=
    match t.Spec.Log.Audit.RetentionPeriod with
    | some v => v
    | none => 0
  [ { Name := LogRetentionPeriodKey
      Value := toString retentionPeriod }
  , { Name := LogPgConnStr
      ValueFrom := some
        { SecretKeyRef := some
            { LocalObjectReference := { Name := L.LogSecretName t }
              Key := LogPgConnStr } } }
  , { Name := LogAuditTokenKey
      ValueFrom := some
        { SecretKeyRef := some
            { LocalObjectReference := { Name := L.LogSecretName t }
              Key := LogAuditTokenKey } } } ]

/-- Function `logSearchAPIContainer`. -/
def logSearchAPIContainer (L : LogEnv) (t : Tenant) : Container :=
  { Name := L.LogSearchAPIContainerName
    Image := LogSearchAPIImage
    Ports := some [ { ContainerPort := LogSearchAPIPort } ]
    ImagePullPolicy := t.Spec.ImagePullPolicy
    Env := some (logSearchAPIEnvVars L t) }

/-- Go map assignment `m[k] = v` on an association list: replace the value of
an existing key, otherwise add the entry. -/
def mapSet (m : List (String × String)) (k v : String) : List (String × String) :=
  match m with
  | [] => [(k, v)]
  | (k', v') :: rest => if k' = k then (k, v) :: rest else (k', v') :: mapSet rest k v

/-- Function `logSearchAPIMeta`: a fresh map filled entry by entry from the pod
labels. -/
def logSearchAPIMeta (L : LogEnv) (t : Tenant) : ObjectMeta :=
  let meta : ObjectMeta := {}
  { meta with
    Labels := (L.LogSearchAPIPodLabels t).foldl (fun labels kv => mapSet labels kv.1 kv.2) [] }

/-- Function `logSearchAPISelector`. -/
def logSearchAPISelector (L : LogEnv) (t : Tenant) : LabelSelector :=
  { MatchLabels := L.LogSearchAPIPodLabels t }

/-- Function `NewForLogSearchAPI`: the deployment literal, then the conditional
assignment of `ImagePullSecrets`. -/
def NewForLogSearchAPI (L : LogEnv) (t : Tenant) : Deployment :=
  let replicas : Int := 1
  let d : Deployment :=
    { ObjectMeta :=
        { Namespace := t.Namespace
          Name := L.LogSearchAPIDeploymentName t
          OwnerReferences := L.OwnerRef t }
      Spec :=
        { Replicas := some replicas
          Selector := some (logSearchAPISelector L t)
          Template :=
            { ObjectMeta := logSearchAPIMeta L t
              Spec :=
                { ServiceAccountName := t.Spec.ServiceAccountName
                  Containers := some [logSearchAPIContainer L t]
                  RestartPolicy := RestartPolicyAlways } } } }
  if t.Spec.ImagePullSecret.Name ≠ "" then
    { d with
      Spec := { d.Spec with
        Template := { d.Spec.Template with
          Spec := { d.Spec.Template.Spec with
            ImagePullSecrets := some [t.Spec.ImagePullSecret] } } } }
  else d

/-! ## Verification as the specification words it -/

/-- A key function that hands back the byte slice `[]byte(secretKey)`, the key
`genBearerToken` signs with, for a method of the HMAC family. -/
def byteKeyFunc (secretKey : String) (token : Token) : Except String KeyValue :=
  match token.Method with
  | .HMAC _ => .ok (.bytes (toBytes secretKey))
  | .other alg => .error ("Unexpected signing method: " ++ alg)

/-- The specification's `Verify(token, secretKey)`: the token parses, is of the
HMAC family, is not expired, and its signature is the MAC under the bytes of
`secretKey`. This is the notion of "the token verifies under the secret key"
against which the source's `bearerTokenNeedsUpdate` is compared. -/
def specVerify (E : Env) (now : Int) (tokenStr secretKey : String) : Bool :=
  match Parse E now tokenStr (byteKeyFunc secretKey) with
  | .ok _ => true
  | .error _ => false

namespace Ref

/-- The reference environment for the log-search code. -/
def logEnv (tls : Bool) : LogEnv :=
  { env tls with
    LogSecretName := fun t => t.Name ++ "-log-secret"
    LogSearchAPIPodLabels := fun t =>
      [("v1.min.io/tenant", t.Name), ("v1.min.io/log-search-api", t.Name ++ "-log-search-api")]
    LogSearchAPIDeploymentName := fun t => t.Name ++ "-log-search-api"
    LogSearchAPIContainerName := "log-search-api" }

/-- A tenant with a pull secret and a retention period of ninety days. -/
def logTenant : Tenant :=
  { Name := "t1", Namespace := "ns"
    Spec :=
      { Pools := [⟨"a", 2⟩]
        ImagePullSecret := ⟨"regcred"⟩
        ImagePullPolicy := "IfNotPresent"
        ServiceAccountName := "sa"
        Log := { Audit := { RetentionPeriod := some 90 } } } }

/-- The tenant `tenant` before it was scaled out: one pool of one server. -/
def smallTenant : Tenant :=
  { Name := "t1", Namespace := "ns", Spec := { Pools := [⟨"a", 1⟩] } }

/-- The document synthesized for `smallTenant` at the clock reading
`1600000000` under the keys `ak` and `sk`. -/
def storedConfig : prometheusConfig :=
  getPrometheusConfig (env false) 1600000000 smallTenant "ak" "sk"

/-- The first scrape config of `storedConfig`. -/
def storedScrape : scrapeConfig :=
  { JobName := "minio"
    BearerToken := genBearerToken (env false) 1600000000 "ak" "sk"
    MetricsPath := "/minio/prometheus/metrics"
    Scheme := "http"
    TLSConfig := { CAFile := "/var/run/secrets/kubernetes.io/serviceaccount/ca.crt" }
    StaticConfigs := some [ { Targets := some (getMinioPodAddrs (env false) smallTenant) } ] }

/-- The config map stored for `smallTenant`: its token was issued under `sk`,
its target list is the one of the smaller topology. -/
def storedConfigMap : ConfigMap :=
  PrometheusConfigMap (env false) 1600000000 smallTenant "ak" "sk"

/-- The desired config map of `logTenant` at the clock reading `1600000001`. -/
def desiredConfigMap : ConfigMap :=
  getConfigMap (logEnv false).toEnv
    (getPrometheusConfig (logEnv false).toEnv 1600000001 logTenant "ak" "sk") logTenant

/-- A stored config map whose token names the method `RS256`. -/
def rsaConfigMap : ConfigMap :=
  { Data :=
      [(prometheusYml,
        "scrape_configs:\n- job_name: minio\n  bearer_token: RS256.4753600000,112,97.123\n")] }

end Ref

/-! ## Lemmas on the drift check -/

/-- Parsing with the key function of `bearerTokenNeedsUpdate` always ends in an
error: a method outside the HMAC family is refused by the key function, and
the HMAC family refuses the string key. -/
theorem Parse_bearerTokenKeyFunc_error (E : Env) (now : Int) (tokenStr secretKey : String) :
    ∃ e, Parse E now tokenStr (bearerTokenKeyFunc secretKey) = .error e := by
  unfold Parse
  cases h : E.parseUnverified tokenStr with
  | error e => exact ⟨e, rfl⟩
  | ok token =>
    cases hm : token.Method with
    | HMAC alg => simp [bearerTokenKeyFunc, hm, SigningMethod.Verify]
    | other alg => simp [bearerTokenKeyFunc, hm]

/-- With a first scrape config present, `bearerTokenNeedsUpdate` reports `true`. -/
theorem bearerTokenNeedsUpdate_of_index (E : Env) (now : Int) (p : prometheusConfig)
    (secretKey : String) (sc : scrapeConfig) (h : p.ScrapeConfigs.index 0 = .ok sc) :
    bearerTokenNeedsUpdate E now p secretKey = .ok true := by
  obtain ⟨e, he⟩ := Parse_bearerTokenKeyFunc_error E now sc.BearerToken secretKey
  simp [bearerTokenNeedsUpdate, h, he, bind, Except.bind, pure, Except.pure]

/-- Without a first scrape config, `bearerTokenNeedsUpdate` panics. -/
theorem bearerTokenNeedsUpdate_of_empty (E : Env) (now : Int) (p : prometheusConfig)
    (secretKey : String) (h : p.ScrapeConfigs.getD [] = []) :
    bearerTokenNeedsUpdate E now p secretKey = .error (.indexOutOfRange 0 0) := by
  simp [bearerTokenNeedsUpdate, Slice.index, h, bind, Except.bind]

/-- The index expression succeeds exactly on a slice with a first element. -/
theorem Slice.index_zero_cases {α : Type} (s : Slice α) :
    (∃ x, s.index 0 = .ok x) ∨ s.getD [] = [] := by
  cases h : s.getD [] with
  | nil => exact Or.inr rfl
  | cons x xs => exact Or.inl ⟨x, by simp [Slice.index, h]⟩

/-- A document that fails to parse is replaced by the desired one. -/
theorem update_of_parse_error (E : Env) (now : Int) (t : Tenant) (accessKey secretKey : String)
    (existing : ConfigMap) (msg : String) (h : fromPrometheusConfigMap E existing = .error msg) :
    UpdatePrometheusConfigMap E now t accessKey secretKey existing
      = .ok (some (getConfigMap E (getPrometheusConfig E now t accessKey secretKey) t)) := by
  simp [UpdatePrometheusConfigMap, h, pure, Except.pure]

/-- A document that parses and has a first scrape config is replaced by the
desired one, with the freshly issued token in place. -/
theorem update_of_parse_ok (E : Env) (now : Int) (t : Tenant) (accessKey secretKey : String)
    (existing : ConfigMap) (cfg : prometheusConfig) (sc : scrapeConfig)
    (h : fromPrometheusConfigMap E existing = .ok cfg) (hsc : cfg.ScrapeConfigs.index 0 = .ok sc) :
    UpdatePrometheusConfigMap E now t accessKey secretKey existing
      = .ok (some (getConfigMap E (getPrometheusConfig E now t accessKey secretKey) t)) := by
  simp [UpdatePrometheusConfigMap, h, bearerTokenNeedsUpdate_of_index E now cfg secretKey sc hsc,
    bind, Except.bind, pure, Except.pure]

/-- A document that parses to zero scrape configs makes the call panic. -/
theorem update_of_parse_empty (E : Env) (now : Int) (t : Tenant) (accessKey secretKey : String)
    (existing : ConfigMap) (cfg : prometheusConfig)
    (h : fromPrometheusConfigMap E existing = .ok cfg) (hsc : cfg.ScrapeConfigs.getD [] = []) :
    UpdatePrometheusConfigMap E now t accessKey secretKey existing
      = .error (.indexOutOfRange 0 0) := by
  simp [UpdatePrometheusConfigMap, h, bearerTokenNeedsUpdate_of_empty E now cfg secretKey hsc,
    bind, Except.bind]

set_option maxRecDepth 1000000 in
/-- In the reference environment a token issued under `sk` passes `Parse` when
the key function hands back `[]byte("sk")`, fails under the bytes of another
key, and fails with the key function of `bearerTokenNeedsUpdate`. -/
theorem Ref.parse_own_token :
    (Parse (Ref.env false) 1600000001 (genBearerToken (Ref.env false) 1600000000 "ak" "sk")
        (fun _ => .ok (.bytes (toBytes "sk")))).isOk = true
    ∧ (Parse (Ref.env false) 1600000001 (genBearerToken (Ref.env false) 1600000000 "ak" "sk")
        (fun _ => .ok (.bytes (toBytes "sk2")))).isOk = false
    ∧ (Parse (Ref.env false) 1600000001 (genBearerToken (Ref.env false) 1600000000 "ak" "sk")
        (bearerTokenKeyFunc "sk")).isOk = false := by
  decide

/-! ## Claims on the drift check -/

/-- C1 (fails on the code): when the stored config map is the one
`PrometheusConfigMap` produced and the codec reads it back, the drift check
does not answer "unchanged": it returns the freshly synthesized config map,
because the stored token is never accepted. -/
theorem update_on_own_output (E : Env) (now₀ now : Int) (t : Tenant) (accessKey secretKey : String)
    (hread : fromPrometheusConfigMap E (PrometheusConfigMap E now₀ t accessKey secretKey)
      = .ok (getPrometheusConfig E now₀ t accessKey secretKey)) :
    UpdatePrometheusConfigMap E now t accessKey secretKey
        (PrometheusConfigMap E now₀ t accessKey secretKey)
      = .ok (some (PrometheusConfigMap E now t accessKey secretKey))
    ∧ UpdatePrometheusConfigMap E now t accessKey secretKey
        (PrometheusConfigMap E now₀ t accessKey secretKey) ≠ .ok none := by
  have h := update_of_parse_ok E now t accessKey secretKey _ _ _ hread
    (by simp [getPrometheusConfig, Slice.index]; rfl)
  rw [h]
  exact ⟨rfl, by simp⟩

set_option maxRecDepth 1000000 in
/-- C1, at a concrete input: a token stored one second earlier, same keys. -/
theorem update_on_own_output_witness :
    fromPrometheusConfigMap (Ref.env false)
        (PrometheusConfigMap (Ref.env false) 1600000000 Ref.tenant "ak" "sk")
      = .ok (getPrometheusConfig (Ref.env false) 1600000000 Ref.tenant "ak" "sk")
    ∧ (UpdatePrometheusConfigMap (Ref.env false) 1600000001 Ref.tenant "ak" "sk"
        (PrometheusConfigMap (Ref.env false) 1600000000 Ref.tenant "ak" "sk")
      = .ok (some (PrometheusConfigMap (Ref.env false) 1600000001 Ref.tenant "ak" "sk"))
    ∧ UpdatePrometheusConfigMap (Ref.env false) 1600000001 Ref.tenant "ak" "sk"
        (PrometheusConfigMap (Ref.env false) 1600000000 Ref.tenant "ak" "sk") ≠ .ok none) :=
  ⟨by decide,
   update_on_own_output (Ref.env false) 1600000000 1600000001 Ref.tenant "ak" "sk" (by decide)⟩

/-- C2 (fails on the code): a config whose first scrape config carries the
token `genBearerToken accessKey secretKey` makes `bearerTokenNeedsUpdate` answer
`true` for every key, the signing key `secretKey` included, at every clock
reading: the key function hands back a string and the HMAC method accepts only
a byte slice. -/
theorem bearerTokenNeedsUpdate_own_token (E : Env) (now₀ now : Int)
    (accessKey secretKey secretKey' : String) (g : globalConfig) (sc : scrapeConfig)
    (rest : List scrapeConfig) :
    bearerTokenNeedsUpdate E now
        { Global := g
          ScrapeConfigs :=
            some ({ sc with BearerToken := genBearerToken E now₀ accessKey secretKey } :: rest) }
        secretKey'
      = .ok true :=
  bearerTokenNeedsUpdate_of_index E now _ secretKey' _ (by simp [Slice.index]; rfl)

/-- C3: when the existing config map parses, its stored token verifies under
`secretKey` (it parses, names a method of the HMAC family and carries the MAC
under `[]byte(secretKey)`), and the stored document differs from the desired
one after masking, the drift check returns the desired config map as
synthesized: its first scrape config carries the token issued by
`genBearerToken`, which is not the empty string. The code reaches this result
through the update branch: `bearerTokenNeedsUpdate` answers true for this
token as well, so the masking assignments are not executed on the returned
document. -/
theorem update_returns_unmasked (E : Env) (now : Int) (t : Tenant) (accessKey secretKey : String)
    (existing : ConfigMap) (cfg : prometheusConfig) (sc : scrapeConfig)
    (hparse : fromPrometheusConfigMap E existing = .ok cfg)
    (hsc : cfg.ScrapeConfigs.index 0 = .ok sc)
    (hverify : specVerify E now sc.BearerToken secretKey = true)
    (hdiff : maskBearerToken cfg
      ≠ maskBearerToken (getPrometheusConfig E now t accessKey secretKey)) :
    UpdatePrometheusConfigMap E now t accessKey secretKey existing
      = .ok (some (getConfigMap E (getPrometheusConfig E now t accessKey secretKey) t))
    ∧ ((getPrometheusConfig E now t accessKey secretKey).ScrapeConfigs.index 0).map
        (fun sc => sc.BearerToken) = .ok (genBearerToken E now accessKey secretKey)
    ∧ genBearerToken E now accessKey secretKey ≠ ""
    ∧ (∃ token alg, E.parseUnverified sc.BearerToken = .ok token
        ∧ token.Method = .HMAC alg
        ∧ token.Claims.Valid now = true
        ∧ E.hmacVerify alg (toBytes secretKey) token.SigningString token.Signature = true)
    ∧ bearerTokenNeedsUpdate E now cfg secretKey = .ok true
    ∧ cfg ≠ getPrometheusConfig E now t accessKey secretKey := by
  refine ⟨update_of_parse_ok E now t accessKey secretKey existing cfg sc hparse hsc, ?_, ?_, ?_,
    bearerTokenNeedsUpdate_of_index E now cfg secretKey sc hsc, fun h => hdiff (by rw [h])⟩
  · simp [getPrometheusConfig, Slice.index, Except.map]
  · intro h
    have := congrArg String.length h
    simp only [genBearerToken, String.length_append] at this
    have hdot : (".").length = 1 := by decide
    have hnil : ("").length = 0 := by decide
    omega
  · unfold specVerify Parse at hverify
    cases hpu : E.parseUnverified sc.BearerToken with
    | error e => simp [hpu] at hverify
    | ok token =>
      cases hm : token.Method with
      | other alg => simp [hpu, byteKeyFunc, hm] at hverify
      | HMAC alg =>
        refine ⟨token, alg, rfl, hm, ?_⟩
        simp only [hpu, byteKeyFunc, hm, SigningMethod.Verify] at hverify
        cases hc : token.Claims.Valid now <;>
          cases hv : E.hmacVerify alg (toBytes secretKey) token.SigningString token.Signature <;>
          simp [hc, hv] at hverify ⊢

set_option maxRecDepth 1000000 in
/-- C3, at a concrete input: the stored map was issued under the same keys
for the tenant before it was scaled out, so its token verifies under `sk` and
its target list differs from the desired one. -/
theorem update_returns_unmasked_witness :
    specVerify (Ref.env false) 1600000001 Ref.storedScrape.BearerToken "sk" = true
    ∧ maskBearerToken Ref.storedConfig
      ≠ maskBearerToken (getPrometheusConfig (Ref.env false) 1600000001 Ref.tenant "ak" "sk")
    ∧ UpdatePrometheusConfigMap (Ref.env false) 1600000001 Ref.tenant "ak" "sk"
        Ref.storedConfigMap
      = .ok (some (getConfigMap (Ref.env false)
          (getPrometheusConfig (Ref.env false) 1600000001 Ref.tenant "ak" "sk") Ref.tenant))
    ∧ ((getPrometheusConfig (Ref.env false) 1600000001 Ref.tenant "ak" "sk").ScrapeConfigs.index
        0).map (fun sc => sc.BearerToken)
      = .ok (genBearerToken (Ref.env false) 1600000001 "ak" "sk")
    ∧ genBearerToken (Ref.env false) 1600000001 "ak" "sk" ≠ "" :=
  ⟨by decide, by decide,
   (update_returns_unmasked (Ref.env false) 1600000001 Ref.tenant "ak" "sk" Ref.storedConfigMap
     Ref.storedConfig Ref.storedScrape (by decide) (by decide) (by decide) (by decide)).1,
   (update_returns_unmasked (Ref.env false) 1600000001 Ref.tenant "ak" "sk" Ref.storedConfigMap
     Ref.storedConfig Ref.storedScrape (by decide) (by decide) (by decide) (by decide)).2.1,
   (update_returns_unmasked (Ref.env false) 1600000001 Ref.tenant "ak" "sk" Ref.storedConfigMap
     Ref.storedConfig Ref.storedScrape (by decide) (by decide) (by decide) (by decide)).2.2.1⟩

/-- C4 (fails on the code): an existing config map whose document parses to
zero scrape configs, as the empty document of a config map without the
`prometheus.yml` key does, makes `UpdatePrometheusConfigMap` panic with an index
out of range instead of returning nil or the desired config map. -/
theorem update_panics_without_scrape_config (E : Env) (now : Int) (t : Tenant)
    (accessKey secretKey : String) (existing : ConfigMap) (cfg : prometheusConfig)
    (hparse : fromPrometheusConfigMap E existing = .ok cfg)
    (hzero : cfg.ScrapeConfigs.getD [] = []) :
    UpdatePrometheusConfigMap E now t accessKey secretKey existing
      = .error (.indexOutOfRange 0 0) :=
  update_of_parse_empty E now t accessKey secretKey existing cfg hparse hzero

/-- C4, at a concrete input: the config map with no data at all. -/
theorem update_panics_without_scrape_config_witness :
    mapGet ({} : ConfigMap).Data prometheusYml = ""
    ∧ fromPrometheusConfigMap (Ref.env false) {} = .ok {}
    ∧ UpdatePrometheusConfigMap (Ref.env false) 1600000001 Ref.tenant "ak" "sk" {}
      = .error (.indexOutOfRange 0 0) :=
  ⟨by decide, by decide,
   update_panics_without_scrape_config (Ref.env false) 1600000001 Ref.tenant "ak" "sk" {} {}
     (by decide) (by decide)⟩

/-- C5: for an existing config map that parses and whose stored bearer token
does not verify under the secret key passed in, `UpdatePrometheusConfigMap`
returns the desired config map `getPrometheusConfig(..).getConfigMap(t)`,
whatever the rest of the stored document is. -/
theorem update_on_rotated_key (E : Env) (now : Int) (t : Tenant) (accessKey secretKey : String)
    (existing : ConfigMap) (cfg : prometheusConfig)
    (hparse : fromPrometheusConfigMap E existing = .ok cfg)
    (hverify : bearerTokenNeedsUpdate E now cfg secretKey = .ok true) :
    UpdatePrometheusConfigMap E now t accessKey secretKey existing
      = .ok (some (getConfigMap E (getPrometheusConfig E now t accessKey secretKey) t)) := by
  simp [UpdatePrometheusConfigMap, hparse, hverify, bind, Except.bind, pure, Except.pure]

set_option maxRecDepth 1000000 in
/-- C5, at a concrete input: the stored map was minted under `sk1`, the call
uses `sk2`, and the rest of the document is the desired one. -/
theorem update_on_rotated_key_witness :
    UpdatePrometheusConfigMap (Ref.env false) 1600000001 Ref.tenant "ak" "sk2"
        (PrometheusConfigMap (Ref.env false) 1600000000 Ref.tenant "ak" "sk1")
      = .ok (some (getConfigMap (Ref.env false)
          (getPrometheusConfig (Ref.env false) 1600000001 Ref.tenant "ak" "sk2") Ref.tenant)) :=
  update_on_rotated_key (Ref.env false) 1600000001 Ref.tenant "ak" "sk2"
    (PrometheusConfigMap (Ref.env false) 1600000000 Ref.tenant "ak" "sk1")
    (getPrometheusConfig (Ref.env false) 1600000000 Ref.tenant "ak" "sk1")
    (by decide) (by decide)

/-- C6: for an existing config map whose `prometheus.yml` content fails to
parse, `UpdatePrometheusConfigMap` returns the desired config map, never nil;
the result is the same under any other token library, so neither the stored
token nor the stored document is consulted. -/
theorem update_on_corrupt_document (E : Env) (now : Int) (t : Tenant)
    (accessKey secretKey : String) (existing : ConfigMap) (msg : String)
    (hparse : fromPrometheusConfigMap E existing = .error msg) :
    UpdatePrometheusConfigMap E now t accessKey secretKey existing
      = .ok (some (getConfigMap E (getPrometheusConfig E now t accessKey secretKey) t))
    ∧ UpdatePrometheusConfigMap E now t accessKey secretKey existing ≠ .ok none
    ∧ ∀ (verify : String → List UInt8 → String → String → Bool)
        (other : String → String → String → KeyValue → Bool)
        (parse : String → Except JwtError Token),
        UpdatePrometheusConfigMap
            { E with hmacVerify := verify, otherVerify := other, parseUnverified := parse }
            now t accessKey secretKey existing
          = .ok (some (getConfigMap E (getPrometheusConfig E now t accessKey secretKey) t)) := by
  have h := update_of_parse_error E now t accessKey secretKey existing msg hparse
  refine ⟨h, by simp [h], ?_⟩
  intro verify other parse
  exact update_of_parse_error _ now t accessKey secretKey existing msg hparse

/-- C6, at a concrete input: a document whose `scrape_configs` is a number. -/
theorem update_on_corrupt_document_witness :
    UpdatePrometheusConfigMap (Ref.env false) 1600000001 Ref.tenant "ak" "sk" Ref.corruptConfigMap
      = .ok (some (getConfigMap (Ref.env false)
          (getPrometheusConfig (Ref.env false) 1600000001 Ref.tenant "ak" "sk") Ref.tenant)) :=
  (update_on_corrupt_document (Ref.env false) 1600000001 Ref.tenant "ak" "sk"
    Ref.corruptConfigMap "yaml: unsupported line" (by decide)).1

/-! ## Claims on the synthesized document -/

/-- Appending one element per step is appending the mapped list. -/
theorem foldl_append_singleton {α β : Type} (f : α → β) (l : List α) (acc : List β) :
    l.foldl (fun targets i => targets ++ [f i]) acc = acc ++ l.map f := by
  induction l generalizing acc with
  | nil => simp
  | cons x xs ih => simp [ih]

/-- Appending one block per step is appending the concatenation of the blocks. -/
theorem foldl_append_block {α β : Type} (g : α → List β) (l : List α) (acc : List β) :
    l.foldl (fun targets x => targets ++ g x) acc = acc ++ l.flatMap g := by
  induction l generalizing acc with
  | nil => simp
  | cons x xs ih => simp [ih]

/-- The loops of `getMinioPodAddrs` as a concatenation over the pools. -/
theorem getMinioPodAddrs_eq_flatMap (E : Env) (t : Tenant) :
    getMinioPodAddrs E t
      = t.Spec.Pools.flatMap (fun pool =>
          (List.range (serverCount pool)).map (podAddr E t (E.PoolStatefulsetName t pool))) := by
  simp [getMinioPodAddrs, foldl_append_singleton, foldl_append_block]

/-- The loop counts add up to the sum of the `Servers` fields when none is
negative. -/
theorem sum_serverCount (pools : List Pool) (h : ∀ pool ∈ pools, 0 ≤ pool.Servers) :
    (((pools.map serverCount).sum : Nat) : Int) = (pools.map Pool.Servers).sum := by
  induction pools with
  | nil => simp
  | cons p ps ih =>
    have hp : 0 ≤ p.Servers := h p (List.mem_cons_self _ _)
    have hps := ih (fun q hq => h q (List.mem_cons_of_mem _ hq))
    simp only [List.map_cons, List.sum_cons, Nat.cast_add, hps, serverCount,
      Int.toNat_of_nonneg hp]

/-- C7: `getMinioPodAddrs` returns the concatenation, over the pools in list
order, of the addresses
`<statefulset>-<i>.<headless service>.<namespace>.svc.<cluster domain>:9000` for
`i = 0 .. Servers-1` in increasing order (none for a pool whose count is not
positive); its length is the sum of the pools' loop counts, which is the sum of
the `Servers` fields when none is negative; for zero pools it is the empty
list. -/
theorem getMinioPodAddrs_spec (E : Env) (t : Tenant) :
    getMinioPodAddrs E t
      = t.Spec.Pools.flatMap (fun pool =>
          (List.range (serverCount pool)).map (fun i =>
            E.PoolStatefulsetName t pool ++ "-" ++ toString i ++ "." ++ E.MinIOHLServiceName t
              ++ "." ++ t.Namespace ++ ".svc." ++ E.GetClusterDomain ++ ":9000"))
    ∧ (getMinioPodAddrs E t).length = (t.Spec.Pools.map serverCount).sum
    ∧ getMinioPodAddrs E { t with Spec := { t.Spec with Pools := [] } } = []
    ∧ ((∀ pool ∈ t.Spec.Pools, 0 ≤ pool.Servers) →
        ((getMinioPodAddrs E t).length : Int) = (t.Spec.Pools.map Pool.Servers).sum) := by
  have hport : toString MinIOPort = "9000" := by decide
  have hlen : (getMinioPodAddrs E t).length = (t.Spec.Pools.map serverCount).sum := by
    rw [getMinioPodAddrs_eq_flatMap]
    induction t.Spec.Pools with
    | nil => simp
    | cons p ps ih => simp [ih]
  refine ⟨?_, hlen, ?_, fun h => by rw [hlen]; exact sum_serverCount _ h⟩
  · rw [getMinioPodAddrs_eq_flatMap]
    congr 1
    funext pool
    congr 1
    funext i
    have hsuffix : ":" ++ "9000" = ":9000" := by decide
    simp only [podAddr, hport]
    rw [String.append_assoc, hsuffix]
  · simp [getMinioPodAddrs]

/-- C7, at a concrete input: two pools of two servers, four addresses. -/
theorem getMinioPodAddrs_spec_witness :
    (∀ pool ∈ Ref.tenant.Spec.Pools, 0 ≤ pool.Servers)
    ∧ ((getMinioPodAddrs (Ref.env false) Ref.tenant).length : Int)
        = (Ref.tenant.Spec.Pools.map Pool.Servers).sum
    ∧ (Ref.tenant.Spec.Pools.map Pool.Servers).sum = 4 :=
  ⟨by decide, (getMinioPodAddrs_spec (Ref.env false) Ref.tenant).2.2.2 (by decide), by decide⟩

/-- C8 (as stated, fails): with TLS disabled the synthesized scrape config still
has a non-empty `CAFile`. -/
theorem caFile_iff_tls_counterexample :
    ¬ (∀ sc ∈ (getPrometheusConfig (Ref.env false) 1600000000 Ref.tenant "ak"
          "sk").ScrapeConfigs.getD [],
        (sc.TLSConfig.CAFile ≠ "" ↔ (Ref.env false).TLS Ref.tenant = true)) := by
  intro h
  have h1 := h _ (List.mem_singleton_self _)
  exact absurd (h1.mp (by decide)) (by decide)

/-- C8 (amended): every scrape config built by `getPrometheusConfig` has
`CAFile` set to the fixed service-account path, which is not empty, whether
`t.TLS()` is true or false. -/
theorem caFile_always_set (E : Env) (now : Int) (t : Tenant) (accessKey secretKey : String)
    (sc : scrapeConfig)
    (hsc : sc ∈ (getPrometheusConfig E now t accessKey secretKey).ScrapeConfigs.getD []) :
    sc.TLSConfig.CAFile = "/var/run/secrets/kubernetes.io/serviceaccount/ca.crt"
    ∧ sc.TLSConfig.CAFile ≠ "" := by
  simp [getPrometheusConfig] at hsc
  subst hsc
  exact ⟨rfl, by simp⟩

/-- C8 (amended), at a concrete input with TLS disabled. -/
theorem caFile_always_set_witness :
    (Ref.env false).TLS Ref.tenant = false
    ∧ ∃ sc, (getPrometheusConfig (Ref.env false) 1600000000 Ref.tenant "ak"
          "sk").ScrapeConfigs = some [sc]
        ∧ sc.TLSConfig.CAFile = "/var/run/secrets/kubernetes.io/serviceaccount/ca.crt"
        ∧ sc.TLSConfig.CAFile ≠ "" :=
  ⟨rfl, _, rfl,
   caFile_always_set (Ref.env false) 1600000000 Ref.tenant "ak" "sk" _
     (List.mem_singleton_self _)⟩

/-- C9: every scrape config produced by `getPrometheusConfig` has scheme
`https` when `t.TLS()` is true and `http` otherwise, so the scheme is `https`
exactly when TLS is enabled. -/
theorem scheme_selection (E : Env) (now : Int) (t : Tenant) (accessKey secretKey : String)
    (sc : scrapeConfig)
    (hsc : sc ∈ (getPrometheusConfig E now t accessKey secretKey).ScrapeConfigs.getD []) :
    sc.Scheme = (if E.TLS t = true then "https" else "http")
    ∧ (sc.Scheme = "https" ↔ E.TLS t = true) := by
  simp [getPrometheusConfig] at hsc
  subst hsc
  cases h : E.TLS t <;> simp [h]

/-- C9, at a concrete input with TLS enabled. -/
theorem scheme_selection_witness :
    ∃ sc, (getPrometheusConfig (Ref.env true) 1600000000 Ref.tenant "ak" "sk").ScrapeConfigs
        = some [sc]
      ∧ sc.Scheme = (if (Ref.env true).TLS Ref.tenant = true then "https" else "http")
      ∧ (sc.Scheme = "https" ↔ (Ref.env true).TLS Ref.tenant = true) :=
  ⟨_, rfl,
   scheme_selection (Ref.env true) 1600000000 Ref.tenant "ak" "sk" _
     (List.mem_singleton_self _)⟩

/-- C10 (as stated, fails): in the topology scenario the list does not have
seven endpoints. -/
theorem topology_scenario_counterexample :
    ¬ ((getMinioPodAddrs Ref.scenarioEnv Ref.scenarioTenant).length = 7
      ∧ (getMinioPodAddrs Ref.scenarioEnv Ref.scenarioTenant).head?
          = some "pool0-0.h.ns.svc.cluster.local:9000"
      ∧ (getMinioPodAddrs Ref.scenarioEnv Ref.scenarioTenant).getLast?
          = some "pool1-1.h.ns.svc.cluster.local:9000") := by
  decide

/-- C10 (amended): for a tenant with two pools of sizes 3 and 2 whose
statefulsets are named `pool0` and `pool1`, headless service `h`, namespace `ns`
and cluster domain `cluster.local`, `getMinioPodAddrs` returns five endpoints, in
pool order then replica order, from `pool0-0.h.ns.svc.cluster.local:9000` to
`pool1-1.h.ns.svc.cluster.local:9000`. -/
theorem topology_scenario (E : Env) (t : Tenant) (p₀ p₁ : Pool)
    (hpools : t.Spec.Pools = [p₀, p₁]) (hs₀ : p₀.Servers = 3) (hs₁ : p₁.Servers = 2)
    (hn₀ : E.PoolStatefulsetName t p₀ = "pool0") (hn₁ : E.PoolStatefulsetName t p₁ = "pool1")
    (hhl : E.MinIOHLServiceName t = "h") (hns : t.Namespace = "ns")
    (hdom : E.GetClusterDomain = "cluster.local") :
    getMinioPodAddrs E t
      = [ "pool0-0.h.ns.svc.cluster.local:9000"
        , "pool0-1.h.ns.svc.cluster.local:9000"
        , "pool0-2.h.ns.svc.cluster.local:9000"
        , "pool1-0.h.ns.svc.cluster.local:9000"
        , "pool1-1.h.ns.svc.cluster.local:9000" ]
    ∧ (getMinioPodAddrs E t).length = 5 := by
  have h : getMinioPodAddrs E t
      = [ "pool0-0.h.ns.svc.cluster.local:9000"
        , "pool0-1.h.ns.svc.cluster.local:9000"
        , "pool0-2.h.ns.svc.cluster.local:9000"
        , "pool1-0.h.ns.svc.cluster.local:9000"
        , "pool1-1.h.ns.svc.cluster.local:9000" ] := by
    have r₃ : List.range (Int.toNat 3) = [0, 1, 2] := by decide
    have r₂ : List.range (Int.toNat 2) = [0, 1] := by decide
    rw [getMinioPodAddrs_eq_flatMap, hpools]
    simp only [List.flatMap_cons, List.flatMap_nil, serverCount, hs₀, hs₁, hn₀, hn₁, r₃, r₂,
      List.map_cons, List.map_nil, podAddr, hhl, hns, hdom]
    decide
  rw [h]
  exact ⟨rfl, rfl⟩

/-- C10 (amended), on the scenario itself. -/
theorem topology_scenario_witness :
    getMinioPodAddrs Ref.scenarioEnv Ref.scenarioTenant
      = [ "pool0-0.h.ns.svc.cluster.local:9000"
        , "pool0-1.h.ns.svc.cluster.local:9000"
        , "pool0-2.h.ns.svc.cluster.local:9000"
        , "pool1-0.h.ns.svc.cluster.local:9000"
        , "pool1-1.h.ns.svc.cluster.local:9000" ]
    ∧ (getMinioPodAddrs Ref.scenarioEnv Ref.scenarioTenant).length = 5 :=
  topology_scenario Ref.scenarioEnv Ref.scenarioTenant ⟨"pool0", 3⟩ ⟨"pool1", 2⟩
    rfl rfl rfl rfl rfl rfl rfl rfl

/-! ## Claims on determinism, claims of the token and ownership -/

/-- A non-nil result of the drift check is a config map built by
`getConfigMap` for the tenant. -/
theorem update_some_is_getConfigMap (E : Env) (now : Int) (t : Tenant)
    (accessKey secretKey : String) (existing cm : ConfigMap)
    (h : UpdatePrometheusConfigMap E now t accessKey secretKey existing = .ok (some cm)) :
    cm = getConfigMap E (getPrometheusConfig E now t accessKey secretKey) t := by
  cases hp : fromPrometheusConfigMap E existing with
  | error msg =>
    rw [update_of_parse_error E now t accessKey secretKey existing msg hp] at h
    injection h with h
    injection h with h
    exact h.symm
  | ok cfg =>
    rcases Slice.index_zero_cases cfg.ScrapeConfigs with ⟨sc, hsc⟩ | hempty
    · rw [update_of_parse_ok E now t accessKey secretKey existing cfg sc hp hsc] at h
      injection h with h
      injection h with h
      exact h.symm
    · rw [update_of_parse_empty E now t accessKey secretKey existing cfg hp hempty] at h
      cases h

/-- C11: for any two clock readings the two documents returned by
`getPrometheusConfig` agree in the global intervals and, in their single scrape
config, in job name, metrics path, scheme, TLS config and target list; they
are equal once the bearer token is masked, and equal outright when the clock
readings are equal. -/
theorem getPrometheusConfig_deterministic (E : Env) (now₁ now₂ : Int) (t : Tenant)
    (accessKey secretKey : String) :
    (getPrometheusConfig E now₁ t accessKey secretKey).Global
      = (getPrometheusConfig E now₂ t accessKey secretKey).Global
    ∧ (∃ sc₁ sc₂,
        (getPrometheusConfig E now₁ t accessKey secretKey).ScrapeConfigs = some [sc₁]
        ∧ (getPrometheusConfig E now₂ t accessKey secretKey).ScrapeConfigs = some [sc₂]
        ∧ sc₁.JobName = sc₂.JobName ∧ sc₁.MetricsPath = sc₂.MetricsPath
        ∧ sc₁.Scheme = sc₂.Scheme ∧ sc₁.TLSConfig = sc₂.TLSConfig
        ∧ sc₁.StaticConfigs = sc₂.StaticConfigs
        ∧ sc₁.StaticConfigs = some [ { Targets := some (getMinioPodAddrs E t) } ])
    ∧ maskBearerToken (getPrometheusConfig E now₁ t accessKey secretKey)
      = maskBearerToken (getPrometheusConfig E now₂ t accessKey secretKey)
    ∧ (now₁ = now₂ →
        getPrometheusConfig E now₁ t accessKey secretKey
          = getPrometheusConfig E now₂ t accessKey secretKey) := by
  refine ⟨rfl, ⟨_, _, rfl, rfl, rfl, rfl, rfl, rfl, rfl, rfl⟩, ?_, fun h => by rw [h]⟩
  simp [maskBearerToken, getPrometheusConfig, Slice.index, Slice.assign, bind, Except.bind,
    pure, Except.pure]

set_option maxRecDepth 1000000 in
/-- C11, at a concrete input: two readings one second apart give different
tokens and otherwise equal documents; equal readings give equal documents. -/
theorem getPrometheusConfig_deterministic_witness :
    genBearerToken (Ref.env false) 1600000000 "ak" "sk"
      ≠ genBearerToken (Ref.env false) 1600000001 "ak" "sk"
    ∧ maskBearerToken (getPrometheusConfig (Ref.env false) 1600000000 Ref.tenant "ak" "sk")
      = maskBearerToken (getPrometheusConfig (Ref.env false) 1600000001 Ref.tenant "ak" "sk")
    ∧ getPrometheusConfig (Ref.env false) 1600000000 Ref.tenant "ak" "sk"
      = getPrometheusConfig (Ref.env false) 1600000000 Ref.tenant "ak" "sk" :=
  ⟨by decide,
   (getPrometheusConfig_deterministic (Ref.env false) 1600000000 1600000001 Ref.tenant "ak"
     "sk").2.2.1,
   (getPrometheusConfig_deterministic (Ref.env false) 1600000000 1600000000 Ref.tenant "ak"
     "sk").2.2.2 rfl⟩

/-- C12: `logSearchAPIEnvVars` returns exactly three variables, in this order:
`LOG_RETENTION_PERIOD` with the decimal rendering of the retention period (`0`
when it is unset) as plain value and no `ValueFrom`; then `LOG_PG_CONNSTR` and
`LOG_AUDIT_TOKEN`, each with an empty value and a `SecretKeyRef` to the secret
`t.LogSecretName()` under the key of the variable's own name. -/
theorem logSearchAPIEnvVars_spec (L : LogEnv) (t : Tenant) :
    logSearchAPIEnvVars L t
      = [ { Name := "LOG_RETENTION_PERIOD"
            Value :=
              match t.Spec.Log.Audit.RetentionPeriod with
              | some n => toString n
              | none => "0"
            ValueFrom := none }
        , { Name := "LOG_PG_CONNSTR"
            Value := ""
            ValueFrom := some
              { SecretKeyRef := some
                  { LocalObjectReference := { Name := L.LogSecretName t }
                    Key := "LOG_PG_CONNSTR" } } }
        , { Name := "LOG_AUDIT_TOKEN"
            Value := ""
            ValueFrom := some
              { SecretKeyRef := some
                  { LocalObjectReference := { Name := L.LogSecretName t }
                    Key := "LOG_AUDIT_TOKEN" } } } ]
    ∧ (logSearchAPIEnvVars L t).length = 3 := by
  have h0 : toString (0 : Int) = "0" := by decide
  refine ⟨?_, rfl⟩
  unfold logSearchAPIEnvVars
  cases t.Spec.Log.Audit.RetentionPeriod with
  | none => simp only [h0]; rfl
  | some n => rfl

/-- C13: the config map of `PrometheusConfigMap`, a non-nil result of
`UpdatePrometheusConfigMap`, the secret of `LogSecret` and the deployment of
`NewForLogSearchAPI` each have `Namespace = t.Namespace` and
`OwnerReferences = t.OwnerRef()`. -/
theorem derived_objects_owned (L : LogEnv) (now : Int) (t : Tenant)
    (accessKey secretKey : String) (existing cm : ConfigMap)
    (h : UpdatePrometheusConfigMap L.toEnv now t accessKey secretKey existing = .ok (some cm)) :
    ((PrometheusConfigMap L.toEnv now t accessKey secretKey).ObjectMeta.Namespace = t.Namespace
      ∧ (PrometheusConfigMap L.toEnv now t accessKey secretKey).ObjectMeta.OwnerReferences
        = L.OwnerRef t)
    ∧ (cm.ObjectMeta.Namespace = t.Namespace ∧ cm.ObjectMeta.OwnerReferences = L.OwnerRef t)
    ∧ ((LogSecret L t).ObjectMeta.Namespace = t.Namespace
      ∧ (LogSecret L t).ObjectMeta.OwnerReferences = L.OwnerRef t)
    ∧ ((NewForLogSearchAPI L t).ObjectMeta.Namespace = t.Namespace
      ∧ (NewForLogSearchAPI L t).ObjectMeta.OwnerReferences = L.OwnerRef t) := by
  have hcm := update_some_is_getConfigMap L.toEnv now t accessKey secretKey existing cm h
  refine ⟨⟨rfl, rfl⟩, ?_, ⟨rfl, rfl⟩, ?_⟩
  · rw [hcm]
    exact ⟨rfl, rfl⟩
  · unfold NewForLogSearchAPI
    split <;> exact ⟨rfl, rfl⟩

set_option maxRecDepth 1000000 in
/-- C13, at a concrete input: the drift check on a foreign document. -/
theorem derived_objects_owned_witness :
    UpdatePrometheusConfigMap (Ref.logEnv false).toEnv 1600000001 Ref.logTenant "ak" "sk"
        Ref.foreignConfigMap = .ok (some Ref.desiredConfigMap)
    ∧ (Ref.desiredConfigMap.ObjectMeta.Namespace = Ref.logTenant.Namespace
      ∧ Ref.desiredConfigMap.ObjectMeta.OwnerReferences
        = (Ref.logEnv false).OwnerRef Ref.logTenant)
    ∧ (NewForLogSearchAPI (Ref.logEnv false) Ref.logTenant).ObjectMeta.Namespace = "ns" :=
  ⟨by decide,
   (derived_objects_owned (Ref.logEnv false) 1600000001 Ref.logTenant "ak" "sk"
      Ref.foreignConfigMap Ref.desiredConfigMap (by decide)).2.1,
   (derived_objects_owned (Ref.logEnv false) 1600000001 Ref.logTenant "ak" "sk"
      Ref.foreignConfigMap Ref.desiredConfigMap (by decide)).2.2.2.1⟩

/-- C14: for a stored token that parses and whose header names a signing
method outside the HMAC family, the key function returns an error, so `Parse`
fails before any key is handed out, `bearerTokenNeedsUpdate` returns true for
every secret key, and `UpdatePrometheusConfigMap` returns the desired config
map. -/
theorem non_hmac_token_rejected (E : Env) (now : Int) (t : Tenant) (accessKey secretKey : String)
    (existing : ConfigMap) (cfg : prometheusConfig) (sc : scrapeConfig) (token : Token)
    (alg : String)
    (hparse : fromPrometheusConfigMap E existing = .ok cfg)
    (hsc : cfg.ScrapeConfigs.index 0 = .ok sc)
    (htoken : E.parseUnverified sc.BearerToken = .ok token)
    (hmethod : token.Method = .other alg) :
    bearerTokenKeyFunc secretKey token = .error ("Unexpected signing method: " ++ alg)
    ∧ Parse E now sc.BearerToken (bearerTokenKeyFunc secretKey)
      = .error (.unverifiable ("Unexpected signing method: " ++ alg))
    ∧ bearerTokenNeedsUpdate E now cfg secretKey = .ok true
    ∧ UpdatePrometheusConfigMap E now t accessKey secretKey existing
      = .ok (some (getConfigMap E (getPrometheusConfig E now t accessKey secretKey) t)) := by
  have hkey : bearerTokenKeyFunc secretKey token
      = .error ("Unexpected signing method: " ++ alg) := by
    simp [bearerTokenKeyFunc, hmethod]
  have hP : Parse E now sc.BearerToken (bearerTokenKeyFunc secretKey)
      = .error (.unverifiable ("Unexpected signing method: " ++ alg)) := by
    simp [Parse, htoken, hkey]
  have hneeds : bearerTokenNeedsUpdate E now cfg secretKey = .ok true := by
    simp [bearerTokenNeedsUpdate, hsc, hP, bind, Except.bind, pure, Except.pure]
  refine ⟨hkey, hP, hneeds, ?_⟩
  simp [UpdatePrometheusConfigMap, hparse, hneeds, bind, Except.bind, pure, Except.pure]

set_option maxRecDepth 1000000 in
/-- C14, at a concrete input: a stored token whose header names `RS256`. -/
theorem non_hmac_token_rejected_witness :
    bearerTokenNeedsUpdate (Ref.env false) 1600000001
        { ScrapeConfigs :=
            some [{ JobName := "minio", BearerToken := "RS256.4753600000,112,97.123" }] } "sk"
      = .ok true
    ∧ UpdatePrometheusConfigMap (Ref.env false) 1600000001 Ref.tenant "ak" "sk" Ref.rsaConfigMap
      = .ok (some (getConfigMap (Ref.env false)
          (getPrometheusConfig (Ref.env false) 1600000001 Ref.tenant "ak" "sk") Ref.tenant)) :=
  ((non_hmac_token_rejected (Ref.env false) 1600000001 Ref.tenant "ak" "sk" Ref.rsaConfigMap
    { ScrapeConfigs :=
        some [{ JobName := "minio", BearerToken := "RS256.4753600000,112,97.123" }] }
    { JobName := "minio", BearerToken := "RS256.4753600000,112,97.123" }
    { Method := .other "RS256"
      Claims := { ExpiresAt := 4753600000, Issuer := "p", Subject := "a" }
      SigningString := "RS256.4753600000,112,97"
      Signature := "123" }
    "RS256" (by decide) (by decide) (by decide) rfl).2.2)

/-- C15: the claims `genBearerToken` signs are `Subject = accessKey`,
`Issuer = "prometheus"` and `ExpiresAt = now + 3153600000`; the horizon
`100 * 365 * 24 * time.Hour` is 3153600000 seconds, that is 3153600000000000000
nanoseconds, below `2 ^ 63`; and `getPrometheusConfig` sets the scrape interval
to 10 s and the evaluation interval to 30 s. -/
theorem token_claims_and_constants (E : Env) (now : Int) (t : Tenant)
    (accessKey secretKey : String) :
    genBearerToken E now accessKey secretKey
      = E.signingString
          { ExpiresAt := now + 3153600000, Subject := accessKey, Issuer := "prometheus" }
        ++ "."
        ++ E.hmacSign (toBytes secretKey)
          (E.signingString
            { ExpiresAt := now + 3153600000, Subject := accessKey, Issuer := "prometheus" })
    ∧ unixAfter now defaultPrometheusJWTExpiry = now + 3153600000
    ∧ defaultPrometheusJWTExpiry = 3153600000 * Second
    ∧ defaultPrometheusJWTExpiry = 3153600000000000000
    ∧ defaultPrometheusJWTExpiry < 2 ^ 63
    ∧ (getPrometheusConfig E now t accessKey secretKey).Global.ScrapeInterval = 10 * Second
    ∧ (getPrometheusConfig E now t accessKey secretKey).Global.EvaluationInterval = 30 * Second
    ∧ Second = 1000000000 := by
  have hexp : unixAfter now defaultPrometheusJWTExpiry = now + 3153600000 := by
    have : defaultPrometheusJWTExpiry / Second = 3153600000 := by decide
    simp only [unixAfter, this]
  refine ⟨?_, hexp, by decide, by decide, by decide, rfl, rfl, rfl⟩
  simp only [genBearerToken, hexp]

set_option maxRecDepth 1000000 in
/-- C15, at a concrete input: the claims read back from the issued token. -/
theorem token_claims_and_constants_witness :
    ((Ref.env false).parseUnverified (genBearerToken (Ref.env false) 1600000000 "ak" "sk")).map
        (fun token => token.Claims)
      = .ok { ExpiresAt := 1600000000 + 3153600000, Subject := "ak", Issuer := "prometheus" }
    ∧ unixAfter 1600000000 defaultPrometheusJWTExpiry = 1600000000 + 3153600000 :=
  ⟨by decide,
   (token_claims_and_constants (Ref.env false) 1600000000 Ref.tenant "ak" "sk").2.1⟩

/-- C16: `LogSecret` returns an `Opaque` secret named `t.LogSecretName()` whose
data map has exactly the keys `POSTGRES_PASSWORD`, `LOG_AUDIT_TOKEN` and
`LOG_PG_CONNSTR`; the value under `LOG_PG_CONNSTR` is
`postgres://postgres:<p>@<addr>/minio_logs?sslmode=disable` with `<p>` the value
`example` stored under `POSTGRES_PASSWORD` and `<addr>` the empty string. -/
theorem LogSecret_spec (L : LogEnv) (t : Tenant) :
    (LogSecret L t).SecretType = "Opaque"
    ∧ (LogSecret L t).ObjectMeta.Name = L.LogSecretName t
    ∧ (LogSecret L t).Data.map Prod.fst = ["POSTGRES_PASSWORD", "LOG_AUDIT_TOKEN", "LOG_PG_CONNSTR"]
    ∧ ((LogSecret L t).Data.map Prod.fst).Nodup
    ∧ ∃ p addr : String,
        (LogSecret L t).Data
          = [ ("POSTGRES_PASSWORD", toBytes p)
            , ("LOG_AUDIT_TOKEN", toBytes "audit_token")
            , ("LOG_PG_CONNSTR",
                toBytes ("postgres://postgres:" ++ p ++ "@" ++ addr
                  ++ "/minio_logs?sslmode=disable")) ]
        ∧ p = "example" ∧ addr = "" := by
  have hdata : (LogSecret L t).Data
      = [ ("POSTGRES_PASSWORD", toBytes "example")
        , ("LOG_AUDIT_TOKEN", toBytes "audit_token")
        , ("LOG_PG_CONNSTR",
            toBytes ("postgres://postgres:" ++ "example" ++ "@" ++ ""
              ++ "/minio_logs?sslmode=disable")) ] := by
    show [ (LogPgPassKey, toBytes "example"), (LogAuditTokenKey, toBytes "audit_token")
         , (LogPgConnStr, toBytes ("postgres://" ++ LogPgUser ++ ":" ++ "example" ++ "@" ++ ""
             ++ "/" ++ LogAuditDB ++ "?sslmode=disable")) ] = _
    decide
  refine ⟨rfl, rfl, ?_, ?_, "example", "", hdata, rfl, rfl⟩
  · rw [hdata]
    rfl
  · rw [hdata]
    decide

/-! ## Claims on the decision rule -/

/-- The drift check never answers "unchanged". -/
theorem update_ne_nil (E : Env) (now : Int) (t : Tenant) (accessKey secretKey : String)
    (existing : ConfigMap) :
    UpdatePrometheusConfigMap E now t accessKey secretKey existing ≠ .ok none := by
  cases hp : fromPrometheusConfigMap E existing with
  | error msg => simp [update_of_parse_error E now t accessKey secretKey existing msg hp]
  | ok cfg =>
    rcases Slice.index_zero_cases cfg.ScrapeConfigs with ⟨sc, hsc⟩ | hempty
    · simp [update_of_parse_ok E now t accessKey secretKey existing cfg sc hp hsc]
    · simp [update_of_parse_empty E now t accessKey secretKey existing cfg hp hempty]

/-- Two synthesized documents for the same tenant are equal after masking,
whatever the clock readings, access keys and secret keys. -/
theorem maskBearerToken_getPrometheusConfig (E : Env) (now₁ now₂ : Int) (t : Tenant)
    (ak₁ ak₂ sk₁ sk₂ : String) :
    maskBearerToken (getPrometheusConfig E now₁ t ak₁ sk₁)
      = maskBearerToken (getPrometheusConfig E now₂ t ak₂ sk₂) := by
  simp [maskBearerToken, getPrometheusConfig, Slice.index, Slice.assign, bind, Except.bind,
    pure, Except.pure]

/-- C17 (fails on the code): when the stored config map is the operator's own
earlier output, it parses, its first bearer token verifies under the secret
key, and the stored and desired documents are equal after masking, but the
drift check does not return nil; the stated equivalence is false there. The
result is never nil. -/
theorem decision_rule_fails (E : Env) (now₀ now : Int) (t : Tenant) (accessKey secretKey : String)
    (hread : fromPrometheusConfigMap E (PrometheusConfigMap E now₀ t accessKey secretKey)
      = .ok (getPrometheusConfig E now₀ t accessKey secretKey))
    (hverify : specVerify E now (genBearerToken E now₀ accessKey secretKey) secretKey = true) :
    ¬ (UpdatePrometheusConfigMap E now t accessKey secretKey
          (PrometheusConfigMap E now₀ t accessKey secretKey) = .ok none
        ↔ ∃ cfg sc,
            fromPrometheusConfigMap E (PrometheusConfigMap E now₀ t accessKey secretKey) = .ok cfg
            ∧ cfg.ScrapeConfigs.index 0 = .ok sc
            ∧ specVerify E now sc.BearerToken secretKey = true
            ∧ maskBearerToken cfg
              = maskBearerToken (getPrometheusConfig E now t accessKey secretKey))
    ∧ UpdatePrometheusConfigMap E now t accessKey secretKey
        (PrometheusConfigMap E now₀ t accessKey secretKey)
      = .ok (some (PrometheusConfigMap E now t accessKey secretKey))
    ∧ ∀ existing, UpdatePrometheusConfigMap E now t accessKey secretKey existing ≠ .ok none := by
  refine ⟨?_, ?_, update_ne_nil E now t accessKey secretKey⟩
  · intro hiff
    obtain ⟨sc, hsc, htok⟩ : ∃ sc,
        (getPrometheusConfig E now₀ t accessKey secretKey).ScrapeConfigs.index 0 = .ok sc
        ∧ sc.BearerToken = genBearerToken E now₀ accessKey secretKey := ⟨_, rfl, rfl⟩
    refine update_ne_nil E now t accessKey secretKey _ (hiff.mpr ?_)
    exact ⟨_, sc, hread, hsc, by rw [htok]; exact hverify,
      maskBearerToken_getPrometheusConfig E _ _ t _ _ _ _⟩
  · exact update_of_parse_ok E now t accessKey secretKey _ _ _ hread
      (by simp [getPrometheusConfig, Slice.index]; rfl)

set_option maxRecDepth 1000000 in
/-- C17, at a concrete input: the stored map was built one second earlier with
the same keys; its token verifies under `sk`, and the result is not nil. -/
theorem decision_rule_fails_witness :
    specVerify (Ref.env false) 1600000001 (genBearerToken (Ref.env false) 1600000000 "ak" "sk")
        "sk" = true
    ∧ UpdatePrometheusConfigMap (Ref.env false) 1600000001 Ref.tenant "ak" "sk"
        (PrometheusConfigMap (Ref.env false) 1600000000 Ref.tenant "ak" "sk")
      = .ok (some (PrometheusConfigMap (Ref.env false) 1600000001 Ref.tenant "ak" "sk")) :=
  ⟨by decide,
   (decision_rule_fails (Ref.env false) 1600000000 1600000001 Ref.tenant "ak" "sk"
     (by decide) (by decide)).2.1⟩

/-- C18 (fails on the code): whether the result is nil does not depend on the
access key, but only because it is never nil: a stored config map minted for
another access key under the same secret key, whose token verifies and whose
document equals the desired one after masking, is not left in place but
replaced. -/
theorem access_key_change_replaces (E : Env) (now₀ now : Int) (t : Tenant)
    (ak₁ ak₂ secretKey : String)
    (hread : fromPrometheusConfigMap E (PrometheusConfigMap E now₀ t ak₁ secretKey)
      = .ok (getPrometheusConfig E now₀ t ak₁ secretKey))
    (_hverify : specVerify E now (genBearerToken E now₀ ak₁ secretKey) secretKey = true) :
    (∀ existing,
      UpdatePrometheusConfigMap E now t ak₁ secretKey existing = .ok none
        ↔ UpdatePrometheusConfigMap E now t ak₂ secretKey existing = .ok none)
    ∧ maskBearerToken (getPrometheusConfig E now₀ t ak₁ secretKey)
      = maskBearerToken (getPrometheusConfig E now t ak₂ secretKey)
    ∧ UpdatePrometheusConfigMap E now t ak₂ secretKey
        (PrometheusConfigMap E now₀ t ak₁ secretKey)
      = .ok (some (PrometheusConfigMap E now t ak₂ secretKey)) := by
  refine ⟨fun existing => ?_, maskBearerToken_getPrometheusConfig E _ _ t _ _ _ _, ?_⟩
  · constructor
    · intro h
      exact absurd h (update_ne_nil E now t ak₁ secretKey existing)
    · intro h
      exact absurd h (update_ne_nil E now t ak₂ secretKey existing)
  · exact update_of_parse_ok E now t ak₂ secretKey _ _ _ hread
      (by simp [getPrometheusConfig, Slice.index]; rfl)

set_option maxRecDepth 1000000 in
/-- C18, at a concrete input: stored for access key `ak1`, checked for `ak2`,
same secret key. -/
theorem access_key_change_replaces_witness :
    specVerify (Ref.env false) 1600000001 (genBearerToken (Ref.env false) 1600000000 "ak1" "sk")
        "sk" = true
    ∧ UpdatePrometheusConfigMap (Ref.env false) 1600000001 Ref.tenant "ak2" "sk"
        (PrometheusConfigMap (Ref.env false) 1600000000 Ref.tenant "ak1" "sk")
      = .ok (some (PrometheusConfigMap (Ref.env false) 1600000001 Ref.tenant "ak2" "sk")) :=
  ⟨by decide,
   (access_key_change_replaces (Ref.env false) 1600000000 1600000001 Ref.tenant "ak1" "ak2" "sk"
     (by decide) (by decide)).2.2⟩

/-! ## Claims on the log-search deployment -/

/-- The deployment has the single log-search container, with or without a pull
secret. -/
theorem NewForLogSearchAPI_containers (L : LogEnv) (t : Tenant) :
    (NewForLogSearchAPI L t).Spec.Template.Spec.Containers = some [logSearchAPIContainer L t] := by
  unfold NewForLogSearchAPI
  split <;> rfl

/-- Assigning a key that the map does not hold appends the entry. -/
theorem mapSet_of_not_mem (m : List (String × String)) (k v : String)
    (h : k ∉ m.map Prod.fst) : mapSet m k v = m ++ [(k, v)] := by
  induction m with
  | nil => rfl
  | cons kv rest ih =>
    obtain ⟨k', v'⟩ := kv
    simp only [List.map_cons, List.mem_cons, not_or] at h
    have hne : ¬ k' = k := fun e => h.1 e.symm
    simp only [mapSet, hne, if_false, ih h.2, List.cons_append]

/-- Copying a map entry by entry into a map with other keys appends it. -/
theorem foldl_mapSet (l acc : List (String × String))
    (h : ((acc ++ l).map Prod.fst).Nodup) :
    l.foldl (fun labels kv => mapSet labels kv.1 kv.2) acc = acc ++ l := by
  induction l generalizing acc with
  | nil => simp
  | cons kv rest ih =>
    have hnot : kv.1 ∉ acc.map Prod.fst := by
      intro hmem
      rw [List.map_append, List.map_cons] at h
      exact (List.nodup_append.mp h).2.2 hmem (List.mem_cons_self _ _)
    have h' : (((acc ++ [kv]) ++ rest).map Prod.fst).Nodup := by
      simpa [List.append_assoc] using h
    simp only [List.foldl_cons, mapSet_of_not_mem acc kv.1 kv.2 hnot]
    simpa [List.append_assoc] using ih (acc ++ [kv]) h'

/-- C19: every `SecretKeyRef` in the environment of a container of
`NewForLogSearchAPI(t)` names the secret `LogSecret(t).Name` and a key present
in `LogSecret(t).Data`. -/
theorem secret_refs_resolve (L : LogEnv) (t : Tenant) (c : Container) (ev : EnvVar)
    (src : EnvVarSource) (ref : SecretKeySelector)
    (hc : c ∈ (NewForLogSearchAPI L t).Spec.Template.Spec.Containers.getD [])
    (hev : ev ∈ c.Env.getD [])
    (hsrc : ev.ValueFrom = some src)
    (href : src.SecretKeyRef = some ref) :
    ref.LocalObjectReference.Name = (LogSecret L t).ObjectMeta.Name
    ∧ ref.Key ∈ (LogSecret L t).Data.map Prod.fst := by
  rw [NewForLogSearchAPI_containers] at hc
  simp only [Option.getD_some, List.mem_singleton] at hc
  subst hc
  have hkeys : (LogSecret L t).Data.map Prod.fst
      = [LogPgPassKey, LogAuditTokenKey, LogPgConnStr] := rfl
  rw [hkeys]
  simp only [logSearchAPIContainer, logSearchAPIEnvVars, Option.getD_some, List.mem_cons,
    List.mem_singleton, List.not_mem_nil, or_false] at hev
  rcases hev with h | h | h
  · subst h
    simp at hsrc
  · subst h
    simp only [Option.some.injEq] at hsrc
    subst hsrc
    simp only [Option.some.injEq] at href
    subst href
    exact ⟨rfl, by simp⟩
  · subst h
    simp only [Option.some.injEq] at hsrc
    subst hsrc
    simp only [Option.some.injEq] at href
    subst href
    exact ⟨rfl, by simp⟩

/-- C19, at a concrete input: the reference of `LOG_AUDIT_TOKEN`. -/
theorem secret_refs_resolve_witness :
    (⟨⟨"t1-log-secret"⟩, "LOG_AUDIT_TOKEN"⟩ : SecretKeySelector).LocalObjectReference.Name
      = (LogSecret (Ref.logEnv false) Ref.logTenant).ObjectMeta.Name
    ∧ "LOG_AUDIT_TOKEN" ∈ (LogSecret (Ref.logEnv false) Ref.logTenant).Data.map Prod.fst :=
  secret_refs_resolve (Ref.logEnv false) Ref.logTenant
    (logSearchAPIContainer (Ref.logEnv false) Ref.logTenant)
    { Name := "LOG_AUDIT_TOKEN"
      ValueFrom := some { SecretKeyRef := some ⟨⟨"t1-log-secret"⟩, "LOG_AUDIT_TOKEN"⟩ } }
    { SecretKeyRef := some ⟨⟨"t1-log-secret"⟩, "LOG_AUDIT_TOKEN"⟩ }
    ⟨⟨"t1-log-secret"⟩, "LOG_AUDIT_TOKEN"⟩
    (by decide) (by decide) rfl rfl

/-- C20: for a tenant whose pod labels form a map (no key twice), the
deployment of `NewForLogSearchAPI` has a selector whose `MatchLabels` and a pod
template whose labels both equal `t.LogSearchAPIPodLabels()`, exactly one
container, replica count 1, and `ImagePullSecrets` equal to the single tenant
pull secret when `t.Spec.ImagePullSecret.Name` is non-empty and nil otherwise. -/
theorem deployment_shape (L : LogEnv) (t : Tenant)
    (hmap : ((L.LogSearchAPIPodLabels t).map Prod.fst).Nodup) :
    (NewForLogSearchAPI L t).Spec.Selector = some { MatchLabels := L.LogSearchAPIPodLabels t }
    ∧ (NewForLogSearchAPI L t).Spec.Template.ObjectMeta.Labels = L.LogSearchAPIPodLabels t
    ∧ (NewForLogSearchAPI L t).Spec.Template.Spec.Containers = some [logSearchAPIContainer L t]
    ∧ ((NewForLogSearchAPI L t).Spec.Template.Spec.Containers.getD []).length = 1
    ∧ (NewForLogSearchAPI L t).Spec.Replicas = some 1
    ∧ ((NewForLogSearchAPI L t).Spec.Template.Spec.ImagePullSecrets
          = some [t.Spec.ImagePullSecret] ↔ t.Spec.ImagePullSecret.Name ≠ "")
    ∧ ((NewForLogSearchAPI L t).Spec.Template.Spec.ImagePullSecrets = none
          ↔ t.Spec.ImagePullSecret.Name = "") := by
  have hlabels : (logSearchAPIMeta L t).Labels = L.LogSearchAPIPodLabels t := by
    have := foldl_mapSet (L.LogSearchAPIPodLabels t) [] (by simpa using hmap)
    simpa [logSearchAPIMeta] using this
  have hcont := NewForLogSearchAPI_containers L t
  refine ⟨?_, ?_, hcont, by rw [hcont]; rfl, ?_, ?_, ?_⟩
  · unfold NewForLogSearchAPI
    split <;> rfl
  · rw [← hlabels]
    unfold NewForLogSearchAPI
    split <;> rfl
  · unfold NewForLogSearchAPI
    split <;> rfl
  · unfold NewForLogSearchAPI
    split
    · rename_i h
      exact ⟨fun _ => h, fun _ => rfl⟩
    · rename_i h
      exact ⟨fun e => by simp at e, fun hne => absurd hne h⟩
  · unfold NewForLogSearchAPI
    split
    · rename_i h
      exact ⟨fun e => by simp at e, fun he => absurd he h⟩
    · rename_i h
      exact ⟨fun _ => not_not.mp h, fun _ => rfl⟩

/-- C20, at a concrete input: a tenant with the pull secret `regcred`. -/
theorem deployment_shape_witness :
    (NewForLogSearchAPI (Ref.logEnv false) Ref.logTenant).Spec.Template.ObjectMeta.Labels
      = [("v1.min.io/tenant", "t1"), ("v1.min.io/log-search-api", "t1-log-search-api")]
    ∧ (NewForLogSearchAPI (Ref.logEnv false) Ref.logTenant).Spec.Template.Spec.ImagePullSecrets
      = some [⟨"regcred"⟩] :=
  ⟨(deployment_shape (Ref.logEnv false) Ref.logTenant (by decide)).2.1,
   (deployment_shape (Ref.logEnv false) Ref.logTenant (by decide)).2.2.2.2.2.1.mpr (by decide)⟩

end MinioOperator
